import Mathlib

/-!
# Verification of the gremgoser Gremlin client (intwinelabs/gremgoser)

Shallow embedding of the request/response correlation engine, the wire
codec, the query builders and the record decoder of the gremgoser
WebSocket client, together with proofs about the frozen specification
claims.  Go byte strings are modelled as `List Nat` (byte values),
`map[string]interface{}` values as association lists over a JSON value
type, `uuid.UUID` values as their canonical text, and the two
`sync.Map`s of the client (`results`, `responseNotifier`) as
association lists keyed by the request id.  Channels are modelled by
their queued contents; a Go `panic` is modelled by an explicit outcome
constructor / `Option.none`.
-/

set_option autoImplicit false

/-! ## Association lists (model of `sync.Map` keyed by request id) -/

/-- Lookup in an association list (first match wins), as `sync.Map.Load`. -/
def alookup {α : Type} (k : String) : List (String × α) → Option α
  | [] => none
  | (k', v) :: rest => if k = k' then some v else alookup k rest

/-- Store into an association list (replace the first binding or append),
as `sync.Map.Store`. -/
def aset {α : Type} (k : String) (v : α) : List (String × α) → List (String × α)
  | [] => [(k, v)]
  | (k', v') :: rest => if k = k' then (k, v) :: rest else (k', v') :: aset k v rest

/-- Delete from an association list, as `sync.Map.Delete`. -/
def adel {α : Type} (k : String) : List (String × α) → List (String × α)
  | [] => []
  | (k', v') :: rest => if k = k' then adel k rest else (k', v') :: adel k rest

theorem alookup_aset_self {α : Type} (k : String) (v : α) (l : List (String × α)) :
    alookup k (aset k v l) = some v := by
  induction l with
  | nil => simp [aset, alookup]
  | cons hd tl ih =>
    obtain ⟨k', v'⟩ := hd
    by_cases h : k = k'
    · simp [aset, alookup, h]
    · simp [aset, alookup, h, ih]

theorem alookup_adel_self {α : Type} (k : String) (l : List (String × α)) :
    alookup k (adel k l) = none := by
  induction l with
  | nil => simp [adel, alookup]
  | cons hd tl ih =>
    obtain ⟨k', v'⟩ := hd
    by_cases h : k = k'
    · subst h; simp [adel, ih]
    · simp [adel, alookup, h, ih]

/-! ## JSON values

`encoding/json` itself is an external collaborator of the repository
(spec §1); we model the values it produces and consumes as a first-order
JSON tree.  Numbers are exact integers (`decoder.UseNumber()` keeps the
textual number; all claims exercise integer-valued numbers only). -/

inductive GJson : Type where
  | str (s : String)
  | num (n : Int)
  | boolean (b : Bool)
  | null
  | arr (elems : List GJson)
  | obj (fields : List (String × GJson))

/-- Serialize a JSON value to text (the `json.Marshal` primitive,
restricted to the value shapes the client produces; string escaping
covers the quote and backslash as Go's encoder does). -/
def renderGJson : GJson → String
  | .str s => "\"" ++ escapeJsonChars s ++ "\""
  | .num n => toString n
  | .boolean b => if b then "true" else "false"
  | .null => "null"
  | .arr elems => "[" ++ String.intercalate "," (renderList elems) ++ "]"
  | .obj fields => "\x7b" ++ String.intercalate "," (renderFields fields) ++ "\x7d"
where
  escapeJsonCharList : List Char → List Char
    | [] => []
    | c :: rest =>
      if c = Char.ofNat 34 ∨ c = Char.ofNat 92 then
        Char.ofNat 92 :: c :: escapeJsonCharList rest
      else c :: escapeJsonCharList rest
  escapeJsonChars (s : String) : String := String.mk (escapeJsonCharList s.toList)
  renderList : List GJson → List String
    | [] => []
    | j :: rest => renderGJson j :: renderList rest
  renderFields : List (String × GJson) → List String
    | [] => []
    | (k, v) :: rest => ("\"" ++ escapeJsonChars k ++ "\":" ++ renderGJson v) :: renderFields rest

/-! ## The request type and the wire codec (types.go, request.go) -/

/-- `GremlinRequest` from types.go: `requestId` is a UUID, modelled by its
canonical text; `Args` is a `map[string]interface{}`, modelled as an
association list of JSON values. -/
structure GremlinRequest : Type where
  requestId : String
  op        : String
  processor : String
  args      : List (String × GJson)

/-- `json.Marshal` of a `GremlinRequest`, following the `json:"..."` field
tags of types.go (the UUID marshals to its canonical text). -/
def encodeRequest (r : GremlinRequest) : GJson :=
  .obj [("requestId", .str r.requestId), ("op", .str r.op),
        ("processor", .str r.processor), ("args", .obj r.args)]

/-- `json.Unmarshal` of a JSON object back into a `GremlinRequest`:
each field is looked up by key, so the result is independent of the
order in which the keys were rendered. -/
def decodeRequest (j : GJson) : Option GremlinRequest :=
  match j with
  | .obj fields =>
    match alookup "requestId" fields, alookup "op" fields,
          alookup "processor" fields, alookup "args" fields with
    | some (.str rid), some (.str op), some (.str proc), some (.obj args) =>
      some ⟨rid, op, proc, args⟩
    | _, _, _, _ => none
  | _ => none

/-- The MIME marker prepended to every outbound frame (request.go). -/
def mimeType : String := "!application/vnd.gremlin-v2.0+json"

/-- `packageRequest` (request.go): marshal the request and prepend the
MIME marker.  In the model serialization always succeeds because `Args`
is already a JSON value. -/
def packageRequest (r : GremlinRequest) : String :=
  mimeType ++ renderGJson (encodeRequest r)

/-- `prepareRequest` (request.go); the freshly generated UUID is passed
in as `rid`. -/
def prepareRequest (rid : String) (query : String)
    (bindings rebindings : List (String × GJson)) : GremlinRequest :=
  { requestId := rid
    op := "eval"
    processor := ""
    args := [("language", .str "gremlin-groovy"), ("gremlin", .str query),
             ("bindings", .obj bindings), ("rebindings", .obj rebindings)] }

/-! ## Base64 and the authentication request (request.go) -/

/-- The standard base64 alphabet used by `base64.StdEncoding`. -/
def b64Alphabet : List Char :=
  "ABCDEFGHIJKLMNOPQRSTUVWXYZabcdefghijklmnopqrstuvwxyz0123456789+/".toList

def b64Char (n : Nat) : Char := b64Alphabet.getD n (Char.ofNat 65)

/-- Encode a byte sequence in standard base64 with `=` padding
(`base64.StdEncoding.EncodeToString`). -/
def base64Chunks : List Nat → List Char
  | b1 :: b2 :: b3 :: rest =>
    let n := b1 % 256 * 65536 + b2 % 256 * 256 + b3 % 256
    b64Char (n / 262144 % 64) :: b64Char (n / 4096 % 64) ::
      b64Char (n / 64 % 64) :: b64Char (n % 64) :: base64Chunks rest
  | [b1, b2] =>
    let n := b1 % 256 * 65536 + b2 % 256 * 256
    [b64Char (n / 262144 % 64), b64Char (n / 4096 % 64),
     b64Char (n / 64 % 64), Char.ofNat 61]
  | [b1] =>
    let n := b1 % 256 * 65536
    [b64Char (n / 262144 % 64), b64Char (n / 4096 % 64),
     Char.ofNat 61, Char.ofNat 61]
  | [] => []

def base64Encode (bytes : List Nat) : String := String.mk (base64Chunks bytes)

/-- `prepareAuthRequest` (request.go): usernames and passwords are byte
sequences; the SASL payload is `0x00 ∥ user ∥ 0x00 ∥ pass`, base64
encoded. -/
def prepareAuthRequest (requestId : String) (username password : List Nat) :
    GremlinRequest :=
  let simpleAuth : List Nat := 0 :: username ++ 0 :: password
  { requestId := requestId
    op := "authentication"
    processor := "traversal"
    args := [("sasl", .str (base64Encode simpleAuth))] }

example : base64Encode (0 :: "test".toList.map Char.toNat ++ 0 :: "root".toList.map Char.toNat)
    = "AHRlc3QAcm9vdA==" := by decide

/-! ## Error taxonomy (types.go) -/

/-- The error values declared in types.go, plus the two `errors.New`
strings produced inline by `Get` and the tag-option `fmt.Errorf` of the
query builders. -/
inductive GremErr : Type where
  | interfaceHasNoIdField
  | noGraphTags
  | unsupportedPropertyMap
  | cannotCastProperty
  | wsConnection
  | wsConnectionNil
  | connectionDisposed
  | invalidURI
  | noAuth
  | unauthorized401
  | authenticate407
  | malformedRequest498
  | invalidRequestArguments499
  | serverError500
  | scriptEvaluationError597
  | serverTimeout598
  | serverSerializationError599
  | unknownCode
  | notPtr
  | notSlice
  | noTagOptionType
deriving DecidableEq

/-- `responseDetectError` (client.go): map a status code to an error;
`nil` for the success codes 200/204/206. -/
def responseDetectError (code : Int) : Option GremErr :=
  if code = 200 then none
  else if code = 204 then none
  else if code = 206 then none
  else if code = 401 then some .unauthorized401
  else if code = 407 then some .authenticate407
  else if code = 498 then some .malformedRequest498
  else if code = 499 then some .invalidRequestArguments499
  else if code = 500 then some .serverError500
  else if code = 597 then some .scriptEvaluationError597
  else if code = 598 then some .serverTimeout598
  else if code = 599 then some .serverSerializationError599
  else some .unknownCode

/-! ## The correlation engine (client.go)

A parsed response frame carries the request id, the status code and the
`result.data` array; the individual `GremlinData` records are abstracted
to `Nat` identifiers (their content is irrelevant to the correlator). -/

structure GFrame : Type where
  requestId : String
  code      : Int
  data      : List Nat
deriving DecidableEq

/-- The client state visible to the correlator: `results` and
`notifier` model the two `sync.Map`s of `Client` (keyed by request id);
a notifier entry holds the queued contents of its buffered `chan int`;
`requests` models the writer queue channel (packaged frame bytes in FIFO
order). -/
structure ClientState : Type where
  results  : List (String × List Nat)
  notifier : List (String × List Nat)
  requests : List String
deriving DecidableEq

/-- `saveResponse` (client.go): append the frame's `result.data` to the
accumulated container for its request id, ensure a notifier channel
exists (`LoadOrStore`), and send `1` on it when the status code is not
206.  All of this happens under `respMutex`, so it is a single atomic
step of the model. -/
def saveResponse (s : ClientState) (f : GFrame) : ClientState :=
  let container := (alookup f.requestId s.results).getD []
  let container := container ++ f.data
  let queued := (alookup f.requestId s.notifier).getD []
  let queued := if f.code ≠ 206 then queued ++ [1] else queued
  { s with results := aset f.requestId container s.results
           notifier := aset f.requestId queued s.notifier }

/-- Fold `saveResponse` over a list of arriving frames, recording for
each frame whether it sent the completion signal (`status.code ≠ 206`). -/
def processFrames (s : ClientState) : List GFrame → ClientState × List Bool
  | [] => (s, [])
  | f :: rest =>
    let s' := saveResponse s f
    let (s'', sigs) := processFrames s' rest
    (s'', decide (f.code ≠ 206) :: sigs)

/-- `retrieveResponse` (client.go).  The `select` between the notifier
channel and the `ReadingWait` timer is resolved by the `timedOut`
parameter.  On timeout the function returns `nil` and touches nothing.
Otherwise it consumes one value `n` from the notifier channel (blocking
forever — `none` — if the channel is empty); when `n = 1` and a results
entry exists, it returns the buffered data and deletes both the notifier
entry and the results entry (`deleteResponse`). -/
def retrieveResponse (timedOut : Bool) (s : ClientState) (id : String) :
    Option (List Nat × ClientState) :=
  if timedOut then some ([], s)
  else match alookup id s.notifier with
    | some (n :: restQueue) =>
      let s1 := { s with notifier := aset id restQueue s.notifier }
      if n = 1 then
        match alookup id s1.results with
        | some d =>
          some (d, { s1 with notifier := adel id s1.notifier
                             results := adel id s1.results })
        | none => some ([], s1)
      else some ([], s1)
    | _ => none

/-- `deleteResponse` (client.go). -/
def deleteResponse (s : ClientState) (id : String) : ClientState :=
  { s with results := adel id s.results }

/-- `authenticate` (part_008): rewrite the pre-built auth template's
`RequestId` to the challenged id, package it and push it on the writer
queue.  When no credentials were configured (`conf.AuthReq == nil`) the
assignment `c.conf.AuthReq.RequestId = requestId` dereferences a nil
pointer: modelled as `none` (a Go runtime panic). -/
def authenticate (authReq : Option GremlinRequest) (requestId : String)
    (s : ClientState) : Option ClientState :=
  match authReq with
  | none => none
  | some t =>
    some { s with requests := s.requests ++ [packageRequest { t with requestId := requestId }] }

/-- Outcome of `handleResponse` on one parsed frame: a normal return
(new state and returned error) or a Go panic. -/
inductive HandleOutcome : Type where
  | ret (s : ClientState) (e : Option GremErr)
  | gopanic
deriving DecidableEq

/-- `handleResponse` (client.go) on an already-unmarshalled frame:
`marshalResponse` surfaces `responseDetectError` of the status code; any
error other than the 407 marker is returned at once (the frame is
dropped); a 407 frame triggers `authenticate`; otherwise the frame is
saved. -/
def handleResponse (authReq : Option GremlinRequest) (s : ClientState)
    (f : GFrame) : HandleOutcome :=
  match responseDetectError f.code with
  | some e =>
    if e = .authenticate407 then
      match authenticate authReq f.requestId s with
      | none => .gopanic
      | some s' => .ret s' none
    else .ret s (some e)
  | none => .ret (saveResponse s f) none

/-- One iteration of `readWorker` (connection.go) on a successfully read
frame: run `handleResponse` and push a non-nil returned error onto the
shared error channel (the emitted errors are collected in the second
component); a panic aborts the worker (`none`). -/
def readWorkerStep (authReq : Option GremlinRequest) (s : ClientState)
    (f : GFrame) : Option (ClientState × List GremErr) :=
  match handleResponse authReq s f with
  | .ret s' (some e) => some (s', [e])
  | .ret s' none => some (s', [])
  | .gopanic => none

/-! ## Tag parsing and string escaping (part_008, spec §4.5) -/

/-- Character-level worker of `escapeString`: the three escaped
characters are the quote (39), double quote (34) and backslash (92). -/
def escapeCharList : List Char → List Char
  | [] => []
  | c :: rest =>
    if c = Char.ofNat 39 ∨ c = Char.ofNat 34 ∨ c = Char.ofNat 92 then
      Char.ofNat 92 :: c :: escapeCharList rest
    else c :: escapeCharList rest

/-- `escapeString` (part_008): prepend a backslash to every quote,
double-quote and backslash character. -/
def escapeString (s : String) : String := String.mk (escapeCharList s.toList)

/-- Split a character list at its first comma (44): the text before it
and, when a comma exists, the text after it. -/
def splitFirstComma : List Char → List Char × Option (List Char)
  | [] => ([], none)
  | c :: rest =>
    if c = Char.ofNat 44 then ([], some rest)
    else
      let (pre, post) := splitFirstComma rest
      (c :: pre, post)

/-- Modelled from the spec: the repository's struct-tag parser
(`parseTag`) is exercised by tags_test.go and the query builders but its
source file is not under src/.  Spec §4.5: "Parses an annotation string
of the form `name,opt1,opt2,…`.  The empty string yields `("", ∅)`."
The name is the text before the first comma, the options are the
remainder. -/
def parseTag (tag : String) : String × String :=
  match splitFirstComma tag.toList with
  | (name, none) => (String.mk name, "")
  | (name, some rest) => (String.mk name, String.mk rest)

/-- The comma-separated fields of a non-empty option string. -/
def commaFields : List Char → List String
  | [] => [""]
  | c :: rest =>
    let fs := commaFields rest
    if c = Char.ofNat 44 then "" :: fs
    else
      match fs with
      | [] => [String.mk [c]]
      | f :: more => (String.mk (c :: f.toList)) :: more

/-- Modelled from the spec: `tagOptions.Contains`, "a linear option
membership check" over the comma-separated option list; the empty
option string contains nothing. -/
def tagContains (opts opt : String) : Bool :=
  if opts = "" then false else (commaFields opts.toList).contains opt

/-! ## Record values and the query builders (part_008)

A caller record is a list of annotated fields.  The dynamic type of a
field's value (which drives Go's `%s`/`%v` formatting and
`reflect.Value` slice access) is captured by the `FieldVal`
constructor. -/

inductive FieldVal : Type where
  | vUuid (u : String)
  | vStr (s : String)
  | vBool (b : Bool)
  | vNum (n : Int)
  | vStrList (l : List String)
  | vBoolList (l : List Bool)
  | vNumList (l : List Int)
  | vJson (j : GJson)
  | vJsonList (l : List GJson)

/-- `json.Marshal` of a field value (used by the `struct` / `[]struct`
branches; a UUID marshals via its text form). -/
def valToJson : FieldVal → GJson
  | .vUuid u => .str u
  | .vStr s => .str s
  | .vBool b => .boolean b
  | .vNum n => .num n
  | .vStrList l => .arr (l.map .str)
  | .vBoolList l => .arr (l.map .boolean)
  | .vNumList l => .arr (l.map .num)
  | .vJson j => j
  | .vJsonList l => .arr l

/-- Go's `%s` verb on a field value.  Strings and `uuid.UUID` (a
`Stringer`) print their text; for any other dynamic type Go prints the
error-verb form `%!s(…)`, which the model abbreviates using the value's
JSON text (that fallback is only reachable when a tag's kind option
contradicts the field's dynamic type). -/
def sprintfS : FieldVal → String
  | .vStr s => s
  | .vUuid u => u
  | v => "%!s(" ++ renderGJson (valToJson v) ++ ")"

/-- Go's `%v` verb on a field value: booleans print `true`/`false`,
integers their decimal form, strings verbatim.  The builders only apply
it to `bool`/`number` kinds and their slice elements. -/
def fmtV : FieldVal → String
  | .vBool b => if b then "true" else "false"
  | .vNum n => toString n
  | .vStr s => s
  | .vUuid u => u
  | v => renderGJson (valToJson v)

/-- `reflect.ValueOf(val)` with `Len`/`Index` as used by the slice
branches: defined for the slice-shaped dynamic types, a runtime panic
(`none`) otherwise. -/
def goElems : FieldVal → Option (List FieldVal)
  | .vStrList l => some (l.map .vStr)
  | .vBoolList l => some (l.map .vBool)
  | .vNumList l => some (l.map .vNum)
  | .vJsonList l => some (l.map .vJson)
  | _ => none

/-- An annotated struct field: its Go name, its `graph:"…"` tag and its
value. -/
structure GField : Type where
  goName : String
  tag    : String
  val    : FieldVal

/-- A caller record: the `Id` field's canonical text when the struct has
one (`reflect.Value.FieldByName("Id").IsValid()`), and the annotated
fields in declaration order. -/
structure GRecord : Type where
  idVal  : Option String
  fields : List GField

/-- One iteration of the `AddV` field loop on a field that was not
skipped: dispatch on the tag options exactly as part_008 does.  `none`
models the reflect panic of a slice branch on a non-slice value; a tag
with a name but no option yields the `fmt.Errorf` tag-option error. -/
def addVField (q name opts : String) (val : FieldVal) :
    Option (Except GremErr String) :=
  if opts = "" then some (.error .noTagOptionType)
  else if tagContains opts "string" ∨ tagContains opts "partitionKey" then
    some (.ok (q ++ ".property('" ++ name ++ "', '" ++ escapeString (sprintfS val) ++ "')"))
  else if tagContains opts "bool" ∨ tagContains opts "number" then
    some (.ok (q ++ ".property('" ++ name ++ "', " ++ fmtV val ++ ")"))
  else if tagContains opts "struct" ∨ tagContains opts "[]struct" then
    some (.ok (q ++ ".property('" ++ name ++ "', '" ++ renderGJson (valToJson val) ++ "')"))
  else if tagContains opts "[]string" then
    (goElems val).map (fun es => .ok (es.foldl
      (fun acc e => acc ++ ".property('" ++ name ++ "', '" ++ escapeString (sprintfS e) ++ "')") q))
  else if tagContains opts "[]bool" ∨ tagContains opts "[]number" then
    (goElems val).map (fun es => .ok (es.foldl
      (fun acc e => acc ++ ".property('" ++ name ++ "', " ++ fmtV e ++ ")") q))
  else some (.ok q)

/-- The `AddV` field loop: fields whose tag parses to an empty name and
empty options are skipped; every other field bumps `tagLength` and is
formatted by `addVField`. -/
def addVLoop : List GField → String → Nat → Option (Except GremErr (String × Nat))
  | [], q, n => some (.ok (q, n))
  | f :: rest, q, n =>
    let (name, opts) := parseTag f.tag
    if name = "" ∧ opts = "" then addVLoop rest q n
    else match addVField q name opts f.val with
      | none => none
      | some (.error e) => some (.error e)
      | some (.ok q') => addVLoop rest q' (n + 1)

/-- The query built by `AddV` (part_008) before it is handed to
`Execute`: requires an `Id` field, starts from `g.addV('<label>')`,
folds the fields, and — when no field contributed a tag — fails with
`ErrorInterfaceHasNoIdField` (this is the value the source returns at
`tagLength == 0`; `ErrorNoGraphTags` is declared in types.go but never
used). -/
def addVQuery (label : String) (d : GRecord) : Option (Except GremErr String) :=
  match d.idVal with
  | none => some (.error .interfaceHasNoIdField)
  | some _ =>
    match addVLoop d.fields ("g.addV('" ++ label ++ "')") 0 with
    | none => none
    | some (.error e) => some (.error e)
    | some (.ok (q, tagLength)) =>
      if tagLength = 0 then some (.error .interfaceHasNoIdField) else some (.ok q)

/-- One iteration of the `UpdateV` field loop (part_008):
`partitionKey` becomes a `.has` predicate, scalar kinds mirror `AddV`,
and the slice kinds first drop the existing properties and then emit
`.property(list, …)` calls. -/
def updateVField (q name opts : String) (val : FieldVal) :
    Option (Except GremErr String) :=
  if opts = "" then some (.error .noTagOptionType)
  else if tagContains opts "partitionKey" then
    some (.ok (q ++ ".has('" ++ name ++ "', '" ++ escapeString (sprintfS val) ++ "')"))
  else if tagContains opts "string" then
    some (.ok (q ++ ".property('" ++ name ++ "', '" ++ escapeString (sprintfS val) ++ "')"))
  else if tagContains opts "bool" ∨ tagContains opts "number" then
    some (.ok (q ++ ".property('" ++ name ++ "', " ++ fmtV val ++ ")"))
  else if tagContains opts "struct" ∨ tagContains opts "[]struct" then
    some (.ok (q ++ ".property('" ++ name ++ "', '" ++ renderGJson (valToJson val) ++ "')"))
  else if tagContains opts "[]string" then
    (goElems val).map (fun es => .ok (es.foldl
      (fun acc e => acc ++ ".property(list, '" ++ name ++ "', '" ++ escapeString (sprintfS e) ++ "')")
      (q ++ ".sideEffect(properties('" ++ name ++ "').drop())")))
  else if tagContains opts "[]bool" ∨ tagContains opts "[]number" then
    (goElems val).map (fun es => .ok (es.foldl
      (fun acc e => acc ++ ".property(list, '" ++ name ++ "', " ++ fmtV e ++ ")")
      (q ++ ".sideEffect(properties('" ++ name ++ "').drop())")))
  else some (.ok q)

/-- The `UpdateV` field loop: additionally skips the field named `Id`. -/
def updateVLoop : List GField → String → Nat → Option (Except GremErr (String × Nat))
  | [], q, n => some (.ok (q, n))
  | f :: rest, q, n =>
    let (name, opts) := parseTag f.tag
    if (name = "" ∧ opts = "") ∨ f.goName = "Id" then updateVLoop rest q n
    else match updateVField q name opts f.val with
      | none => none
      | some (.error e) => some (.error e)
      | some (.ok q') => updateVLoop rest q' (n + 1)

/-- The query built by `UpdateV` (part_008). -/
def updateVQuery (d : GRecord) : Option (Except GremErr String) :=
  match d.idVal with
  | none => some (.error .interfaceHasNoIdField)
  | some id =>
    match updateVLoop d.fields ("g.V('" ++ id ++ "')") 0 with
    | none => none
    | some (.error e) => some (.error e)
    | some (.ok (q, tagLength)) =>
      if tagLength = 0 then some (.error .interfaceHasNoIdField) else some (.ok q)

/-- The query built by `DropV` (part_008). -/
def dropVQuery (d : GRecord) : Except GremErr String :=
  match d.idVal with
  | none => .error .interfaceHasNoIdField
  | some id => .ok ("g.V('" ++ id ++ "').drop()")

/-- The edge-creation traversal (`AddE`, `AddEById`, part_008). -/
def addEQuery (label fromId toId : String) : String :=
  "g.V('" ++ fromId ++ "').addE('" ++ label ++ "').to(g.V('" ++ toId ++ "'))"

/-- The edge-drop traversal (`DropE`, `DropEById`, part_008). -/
def dropEQuery (label fromId toId : String) : String :=
  "g.V('" ++ fromId ++ "').outE('" ++ label ++ "').and(inV().is('" ++ toId ++ "')).drop()"

/-- A value of the edge-property map passed to `AddEWithProps`. -/
inductive PropVal : Type where
  | pStr (s : String)
  | pNum (n : Int)
  | pBool (b : Bool)
  | pStrList (l : List String)
  | pOther
deriving DecidableEq

/-- `buildProps` (part_008): strings are quoted (without escaping),
booleans and numbers are bare, slice elements are escaped and quoted;
any other value kind is `ErrorUnsupportedPropertyMap`.  Go map
iteration order is unspecified; the model fixes the association-list
order. -/
def buildPropsAux : List (String × PropVal) → String → Except GremErr String
  | [], q => .ok q
  | (k, v) :: rest, q =>
    match v with
    | .pStr s => buildPropsAux rest (q ++ ".property('" ++ k ++ "', '" ++ s ++ "')")
    | .pNum n => buildPropsAux rest (q ++ ".property('" ++ k ++ "', " ++ toString n ++ ")")
    | .pBool b => buildPropsAux rest
        (q ++ ".property('" ++ k ++ "', " ++ (if b then "true" else "false") ++ ")")
    | .pStrList l => buildPropsAux rest (l.foldl
        (fun acc e => acc ++ ".property('" ++ k ++ "', '" ++ escapeString e ++ "')") q)
    | .pOther => .error .unsupportedPropertyMap

def buildProps (props : List (String × PropVal)) : Except GremErr String :=
  buildPropsAux props ""

/-! ## The public write-facing operations (part_008)

Each operation first consults the transport's `disposed` flag; only
when it is clear does it build its traversal and hand it to `Execute`,
which dispatches onto the writer queue.  The outcome records whether the
call was rejected before any dispatch, and otherwise which gremlin
queries were dispatched. -/

inductive OpOutcome : Type where
  | rejected (e : GremErr)
  | dispatched (queries : List String)
deriving DecidableEq

/-- `Execute` (part_008): the disposed gate, then dispatch of the
packaged query. -/
def executeOp (disposed : Bool) (query : String) : OpOutcome :=
  if disposed then .rejected .connectionDisposed else .dispatched [query]

/-- `Get` (part_008) up to its dispatch: the disposed gate, then the
pointer and slice shape checks on the output argument. -/
def getOp (disposed isPtr isSliceTarget : Bool) (query : String) : OpOutcome :=
  if disposed then .rejected .connectionDisposed
  else if ¬ isPtr then .rejected .notPtr
  else if ¬ isSliceTarget then .rejected .notSlice
  else .dispatched [query]

/-- `AddV` (part_008): gate, then the built traversal. -/
def addVOp (disposed : Bool) (label : String) (d : GRecord) : Option OpOutcome :=
  if disposed then some (.rejected .connectionDisposed)
  else (addVQuery label d).map (fun r =>
    match r with
    | .error e => .rejected e
    | .ok q => .dispatched [q])

/-- `UpdateV` (part_008). -/
def updateVOp (disposed : Bool) (d : GRecord) : Option OpOutcome :=
  if disposed then some (.rejected .connectionDisposed)
  else (updateVQuery d).map (fun r =>
    match r with
    | .error e => .rejected e
    | .ok q => .dispatched [q])

/-- `DropV` (part_008). -/
def dropVOp (disposed : Bool) (d : GRecord) : OpOutcome :=
  if disposed then .rejected .connectionDisposed
  else match dropVQuery d with
    | .error e => .rejected e
    | .ok q => .dispatched [q]

/-- `AddE` (part_008): gate, `Id` checks on both records, then the edge
traversal. -/
def addEOp (disposed : Bool) (label : String) (src dst : GRecord) : OpOutcome :=
  if disposed then .rejected .connectionDisposed
  else match src.idVal with
    | none => .rejected .interfaceHasNoIdField
    | some fid =>
      match dst.idVal with
      | none => .rejected .interfaceHasNoIdField
      | some tid => .dispatched [addEQuery label fid tid]

/-- `AddEById` (part_008). -/
def addEByIdOp (disposed : Bool) (label fromId toId : String) : OpOutcome :=
  if disposed then .rejected .connectionDisposed
  else .dispatched [addEQuery label fromId toId]

/-- `AddEWithProps` (part_008). -/
def addEWithPropsOp (disposed : Bool) (label : String) (src dst : GRecord)
    (props : List (String × PropVal)) : OpOutcome :=
  if disposed then .rejected .connectionDisposed
  else match src.idVal with
    | none => .rejected .interfaceHasNoIdField
    | some fid =>
      match dst.idVal with
      | none => .rejected .interfaceHasNoIdField
      | some tid =>
        match buildProps props with
        | .error e => .rejected e
        | .ok p => .dispatched [addEQuery label fid tid ++ p]

/-- `AddEWithPropsById` (part_008). -/
def addEWithPropsByIdOp (disposed : Bool) (label fromId toId : String)
    (props : List (String × PropVal)) : OpOutcome :=
  if disposed then .rejected .connectionDisposed
  else match buildProps props with
    | .error e => .rejected e
    | .ok p => .dispatched [addEQuery label fromId toId ++ p]

/-- `DropE` (part_008). -/
def dropEOp (disposed : Bool) (label : String) (src dst : GRecord) : OpOutcome :=
  if disposed then .rejected .connectionDisposed
  else match src.idVal with
    | none => .rejected .interfaceHasNoIdField
    | some fid =>
      match dst.idVal with
      | none => .rejected .interfaceHasNoIdField
      | some tid => .dispatched [dropEQuery label fid tid]

/-- `DropEById` (part_008). -/
def dropEByIdOp (disposed : Bool) (label fromId toId : String) : OpOutcome :=
  if disposed then .rejected .connectionDisposed
  else .dispatched [dropEQuery label fromId toId]

/-! ## The transport (connection.go) -/

/-- The transport state of `Ws`: whether the socket handle (`ws.conn`)
is non-nil, the two flags, the quit channel and whether the pong handler
has been installed. -/
structure WsState : Type where
  uri         : String
  connPresent : Bool
  disposed    : Bool
  connected   : Bool
  quitClosed  : Bool
  pongHandlerInstalled : Bool
deriving DecidableEq

/-- `Ws.close` (connection.go): with no socket handle it returns
`ErrorWSConnectionNil` at once — before the deferred block is even
registered, so `disposed` is NOT latched.  Otherwise the deferred block
closes the quit channel, closes the socket and latches `disposed`;
the returned error is whatever the close-frame write produced
(`writeErr`, an external socket outcome). -/
def closeWs (ws : WsState) (writeErr : Option GremErr) : WsState × Option GremErr :=
  if ¬ ws.connPresent then (ws, some .wsConnectionNil)
  else ({ ws with quitClosed := true, disposed := true }, writeErr)

/-- The observable outcome of one `websocket.Dialer.Dial` call: whether
it returned a nil error, and whether an HTTP response was observed. -/
structure DialOutcome : Type where
  ok      : Bool
  hasResp : Bool
deriving DecidableEq

/-- `Ws.connect` (connection.go): dial the configured URI (`d1`); on any
error append `/gremlin` to the URI and dial once more (`d2`).  If the
final dial errored with no HTTP response, return `ErrorWSConnection`;
if the final dial succeeded, set `connected` and install the pong
handler; an errored dial that did observe an HTTP response returns
`nil` without connecting.  The third component lists the URIs dialled
in order. -/
def connectWs (ws : WsState) (d1 d2 : DialOutcome) :
    WsState × Option GremErr × List String :=
  if d1.ok then
    ({ ws with connPresent := true, connected := true, pongHandlerInstalled := true },
     none, [ws.uri])
  else
    let uri2 := ws.uri ++ "/gremlin"
    if d2.ok then
      ({ ws with uri := uri2, connPresent := true, connected := true,
                 pongHandlerInstalled := true },
       none, [ws.uri, uri2])
    else if ¬ d2.hasResp then
      ({ ws with uri := uri2, connPresent := false }, some .wsConnection, [ws.uri, uri2])
    else
      ({ ws with uri := uri2, connPresent := false }, none, [ws.uri, uri2])

/-! ## Numeric property decoding in `Get` (part_008)

`Get` re-marshals the response and decodes it with
`decoder.UseNumber()`, so a numeric wire value reaches the field switch
as a `json.Number` — the exact textual number, modelled as an `Int`
(all integer-valued wire numbers).  The `Int`/`Uint` cases call
`json.Number.Int64`, i.e. `strconv.ParseInt(s, 10, 64)`, discarding the
error: an out-of-range value saturates to the int64 bound.  The value
is then assigned only when `reflect.Value.OverflowInt/OverflowUint` is
false for the field's width; otherwise the field keeps its zero value
and no error is reported. -/

def maxInt64 : Int := 2 ^ 63 - 1

def minInt64 : Int := -(2 ^ 63)

/-- `json.Number.Int64` with the error discarded: `strconv.ParseInt`
saturates out-of-range input to the bound of the requested bit size. -/
def parseInt64 (n : Int) : Int :=
  if n > maxInt64 then maxInt64 else if n < minInt64 then minInt64 else n

/-- `reflect.Value.OverflowInt` for a signed field of width `w` bits. -/
def overflowInt (w : Nat) (v : Int) : Bool :=
  decide (v < -(2 ^ (w - 1)) ∨ 2 ^ (w - 1) ≤ v)

/-- `uint64(vInt)`: two's-complement reinterpretation of an int64. -/
def toUint64 (v : Int) : Nat := (v % 2 ^ 64).toNat

/-- `reflect.Value.OverflowUint` for an unsigned field of width `w` bits. -/
def overflowUint (w : Nat) (u : Nat) : Bool := decide (2 ^ w ≤ u)

/-- The final value of a signed integer field of width `w` after `Get`
decodes the single-valued wire number `n` into it (the field starts at
its zero value). -/
def decodeIntField (w : Nat) (n : Int) : Int :=
  let vInt := parseInt64 n
  if overflowInt w vInt then 0 else vInt

/-- The final value of an unsigned integer field of width `w` after
`Get` decodes the single-valued wire number `n` into it. -/
def decodeUintField (w : Nat) (n : Int) : Nat :=
  let vInt := parseInt64 n
  let vUint := toUint64 vInt
  if overflowUint w vUint then 0 else vUint

/-- The claim's reading of the signed decode: assign the exact wire
value when it fits the field's width, else leave the field at zero. -/
def specDecodeIntField (w : Nat) (n : Int) : Int :=
  if -(2 ^ (w - 1)) ≤ n ∧ n < 2 ^ (w - 1) then n else 0

/-- The claim's reading of the unsigned decode. -/
def specDecodeUintField (w : Nat) (n : Int) : Nat :=
  if 0 ≤ n ∧ n < 2 ^ w then n.toNat else 0

/-! ## Claim C4: the wire codec round trip -/

/-- C4: for every request (serialization always succeeds in the model,
`Args` being a JSON value), `packageRequest` produces exactly the
34-character ASCII MIME marker `!application/vnd.gremlin-v2.0+json`
followed by the rendering of a JSON object that decodes back — by key
lookup, hence independently of key order — to a request equal to the
input. -/
theorem packageRequest_mime_roundtrip (r : GremlinRequest) :
    mimeType.length = 34 ∧
    (∃ rest : String, packageRequest r = mimeType ++ rest) ∧
    decodeRequest (encodeRequest r) = some r := by
  refine ⟨rfl, ⟨renderGJson (encodeRequest r), rfl⟩, rfl⟩

/-! ## Claim C9: the authentication request -/

/-- C9: `prepareAuthRequest` keeps the given request id, uses op
`authentication` and processor `traversal`, and its args hold the single
entry `sasl` mapped to the standard base64 encoding of
`0x00 ∥ username ∥ 0x00 ∥ password`. -/
theorem prepareAuthRequest_fields (rid : String) (user pass : List Nat) :
    (prepareAuthRequest rid user pass).requestId = rid ∧
    (prepareAuthRequest rid user pass).op = "authentication" ∧
    (prepareAuthRequest rid user pass).processor = "traversal" ∧
    (prepareAuthRequest rid user pass).args
      = [("sasl", GJson.str (base64Encode ([0] ++ user ++ [0] ++ pass)))] := by
  refine ⟨rfl, rfl, rfl, ?_⟩
  simp [prepareAuthRequest]

/-! ## Claim C8: connect and the `/gremlin` endpoint fallback -/

/-- C8: on a fresh transport, if the first handshake fails without an
HTTP response, `connect` retries exactly once with `/gremlin` appended;
it returns `ErrorWSConnection` iff the retry also failed with no HTTP
response observed; and whenever a dial succeeded, the connected flag is
set and the pong handler installed (and only then). -/
theorem connect_fallback (ws : WsState) (d1 d2 : DialOutcome)
    (hc : ws.connected = false) (hp : ws.pongHandlerInstalled = false) :
    (d1.ok = false ∧ d1.hasResp = false →
      (connectWs ws d1 d2).2.2 = [ws.uri, ws.uri ++ "/gremlin"]) ∧
    ((connectWs ws d1 d2).2.1 = some .wsConnection ↔
      d1.ok = false ∧ d2.ok = false ∧ d2.hasResp = false) ∧
    ((connectWs ws d1 d2).1.connected = true ↔ (d1.ok = true ∨ d2.ok = true)) ∧
    ((connectWs ws d1 d2).1.pongHandlerInstalled = true ↔
      (d1.ok = true ∨ d2.ok = true)) := by
  obtain ⟨o1, r1⟩ := d1
  obtain ⟨o2, r2⟩ := d2
  cases o1 <;> cases o2 <;> cases r2 <;>
    simp [connectWs, hc, hp]

/-- Closed witness for C8 at a concrete transport state: both dials fail
with no HTTP response, so connect reports `ErrorWSConnection`. -/
theorem connect_fallback_witness :
    (connectWs ⟨"ws://h", false, false, false, false, false⟩
        ⟨false, false⟩ ⟨false, false⟩).2.1 = some .wsConnection := by
  have h := connect_fallback ⟨"ws://h", false, false, false, false, false⟩
    ⟨false, false⟩ ⟨false, false⟩ rfl rfl
  exact h.2.1.mpr ⟨rfl, rfl, rfl⟩

/-! ## Claim C7: the disposed gate on the write-facing operations -/

/-- C7 counterexample: `Ws.close` on a client whose socket handle is
absent returns `ErrorWSConnectionNil` before its deferred block is
registered, so `disposed` is never latched — and a subsequent `Execute`
dispatches instead of returning the disposed error.  Such a client is
reachable: a handshake that errors while an HTTP response is observed
leaves `ws.conn = nil` yet `connect` returns no error. -/
theorem close_nil_socket_not_disposed :
    (connectWs ⟨"ws://h", false, false, false, false, false⟩
        ⟨false, true⟩ ⟨false, true⟩).2.1 = none ∧
    (closeWs ⟨"ws://h/gremlin", false, false, false, false, false⟩ none).2
      = some .wsConnectionNil ∧
    ((closeWs ⟨"ws://h/gremlin", false, false, false, false, false⟩ none).1).disposed
      = false ∧
    executeOp ((closeWs ⟨"ws://h/gremlin", false, false, false, false, false⟩ none).1).disposed
        "g.V()" = .dispatched ["g.V()"] := by
  decide

/-- C7 amended: provided the socket handle is present when `close` runs,
`disposed` is latched, and afterwards every write-facing public
operation — Execute, Get, AddV, UpdateV, DropV, AddE, AddEById,
AddEWithProps, AddEWithPropsById, DropE, DropEById — is rejected with
`ErrorConnectionDisposed` before dispatching anything. -/
theorem close_then_ops_rejected (ws : WsState) (we : Option GremErr)
    (hconn : ws.connPresent = true) :
    ((closeWs ws we).1.disposed = true) ∧
    (∀ q, executeOp (closeWs ws we).1.disposed q
        = .rejected .connectionDisposed) ∧
    (∀ p sl q, getOp (closeWs ws we).1.disposed p sl q
        = .rejected .connectionDisposed) ∧
    (∀ label d, addVOp (closeWs ws we).1.disposed label d
        = some (.rejected .connectionDisposed)) ∧
    (∀ d, updateVOp (closeWs ws we).1.disposed d
        = some (.rejected .connectionDisposed)) ∧
    (∀ d, dropVOp (closeWs ws we).1.disposed d
        = .rejected .connectionDisposed) ∧
    (∀ label s t, addEOp (closeWs ws we).1.disposed label s t
        = .rejected .connectionDisposed) ∧
    (∀ label f t, addEByIdOp (closeWs ws we).1.disposed label f t
        = .rejected .connectionDisposed) ∧
    (∀ label s t pr, addEWithPropsOp (closeWs ws we).1.disposed label s t pr
        = .rejected .connectionDisposed) ∧
    (∀ label f t pr, addEWithPropsByIdOp (closeWs ws we).1.disposed label f t pr
        = .rejected .connectionDisposed) ∧
    (∀ label s t, dropEOp (closeWs ws we).1.disposed label s t
        = .rejected .connectionDisposed) ∧
    (∀ label f t, dropEByIdOp (closeWs ws we).1.disposed label f t
        = .rejected .connectionDisposed) := by
  have hd : (closeWs ws we).1.disposed = true := by
    simp [closeWs, hconn]
  refine ⟨hd, ?_, ?_, ?_, ?_, ?_, ?_, ?_, ?_, ?_, ?_, ?_⟩ <;>
    intros <;>
    simp [hd, executeOp, getOp, addVOp, updateVOp, dropVOp, addEOp, addEByIdOp,
          addEWithPropsOp, addEWithPropsByIdOp, dropEOp, dropEByIdOp]

/-- Closed witness for C7 at a concrete closed client. -/
theorem close_then_ops_rejected_witness :
    (closeWs ⟨"ws://h", true, false, true, false, true⟩ none).1.disposed = true ∧
    executeOp (closeWs ⟨"ws://h", true, false, true, false, true⟩ none).1.disposed "g.V()"
      = .rejected .connectionDisposed := by
  have h := close_then_ops_rejected ⟨"ws://h", true, false, true, false, true⟩ none rfl
  exact ⟨h.1, h.2.1 "g.V()"⟩

/-! ## Claim C1: partial-frame accumulation and retrieval -/

/-- Concatenation, in arrival order, of the `result.data` arrays of a
frame sequence. -/
def framesData : List GFrame → List Nat
  | [] => []
  | f :: rest => f.data ++ framesData rest

theorem framesData_append (l1 l2 : List GFrame) :
    framesData (l1 ++ l2) = framesData l1 ++ framesData l2 := by
  induction l1 with
  | nil => simp [framesData]
  | cons f rest ih => simp [framesData, ih]

theorem processFrames_append (s : ClientState) (l1 l2 : List GFrame) :
    processFrames s (l1 ++ l2)
      = ((processFrames (processFrames s l1).1 l2).1,
         (processFrames s l1).2 ++ (processFrames (processFrames s l1).1 l2).2) := by
  induction l1 generalizing s with
  | nil => simp [processFrames]
  | cons f rest ih => simp [processFrames, ih]

/-- After a run of partial (code 206) frames for request `r`, the
accumulated buffer has grown by their concatenated data, the notifier
channel is still empty, and no completion signal was emitted. -/
theorem processFrames_partialRun (fs : List GFrame) (r : String) (s : ClientState)
    (acc : List Nat)
    (hall : ∀ f ∈ fs, f.requestId = r ∧ f.code = 206)
    (hres : (alookup r s.results).getD [] = acc)
    (hnot : (alookup r s.notifier).getD [] = []) :
    (alookup r (processFrames s fs).1.results).getD [] = acc ++ framesData fs ∧
    (alookup r (processFrames s fs).1.notifier).getD [] = [] ∧
    (processFrames s fs).2 = fs.map (fun _ => false) := by
  induction fs generalizing s acc with
  | nil =>
    simp only [processFrames, framesData, List.map_nil]
    exact ⟨by simpa using hres, hnot, trivial⟩
  | cons f rest ih =>
    obtain ⟨hid, hcode⟩ := hall f (by simp)
    have hstep : saveResponse s f
        = { s with results := aset r (acc ++ f.data) s.results
                   notifier := aset r [] s.notifier } := by
      simp [saveResponse, hid, hcode, hres, hnot]
    have ih' := ih (saveResponse s f) (acc ++ f.data)
      (fun g hg => hall g (by simp [hg]))
      (by rw [hstep]; simp [alookup_aset_self])
      (by rw [hstep]; simp [alookup_aset_self])
    refine ⟨?_, ?_, ?_⟩
    · have := ih'.1
      simpa [processFrames, framesData, List.append_assoc] using this
    · simpa [processFrames] using ih'.2.1
    · simp [processFrames, hcode, ih'.2.2]

/-- C1: starting from the state created at dispatch (no buffer yet, an
empty notifier channel for `r`), processing any run of 206 frames for
`r` followed by a first non-206 frame emits the completion signal
exactly at that last frame, and the waiting caller retrieves exactly
the concatenation, in arrival order, of all the frames' `result.data`
arrays (after which both pending entries are gone). -/
theorem correlator_stream_confirmed (r : String) (fs : List GFrame)
    (flast : GFrame) (s : ClientState)
    (hres : alookup r s.results = none)
    (hnot : alookup r s.notifier = some [])
    (hall : ∀ f ∈ fs, f.requestId = r ∧ f.code = 206)
    (hid : flast.requestId = r) (hcode : flast.code ≠ 206) :
    (processFrames s (fs ++ [flast])).2 = fs.map (fun _ => false) ++ [true] ∧
    (retrieveResponse false (processFrames s (fs ++ [flast])).1 r).map Prod.fst
      = some (framesData fs ++ flast.data) ∧
    ∀ p ∈ retrieveResponse false (processFrames s (fs ++ [flast])).1 r,
      alookup r p.2.results = none ∧ alookup r p.2.notifier = none := by
  obtain ⟨h1, h2, h3⟩ := processFrames_partialRun fs r s []
    hall (by simp [hres]) (by simp [hnot])
  set s1 := (processFrames s fs).1 with hs1
  have hstep : saveResponse s1 flast
      = { s1 with results := aset r (framesData fs ++ flast.data) s1.results
                  notifier := aset r [1] s1.notifier } := by
    simp [saveResponse, hid, hcode, h1, h2]
  have happ := processFrames_append s fs [flast]
  have hfin : (processFrames s (fs ++ [flast])).1 = saveResponse s1 flast := by
    rw [happ]; simp [processFrames]
  have hsig : (processFrames s (fs ++ [flast])).2
      = fs.map (fun _ => false) ++ [true] := by
    rw [happ]; simp [processFrames, h3, hcode]
  have hN : alookup r (saveResponse s1 flast).notifier = some [1] := by
    rw [hstep]; exact alookup_aset_self r [1] s1.notifier
  have hR : alookup r (saveResponse s1 flast).results
      = some (framesData fs ++ flast.data) := by
    rw [hstep]; exact alookup_aset_self r (framesData fs ++ flast.data) s1.results
  refine ⟨hsig, ?_, ?_⟩
  · rw [hfin]
    simp [retrieveResponse, hN, hR]
  · rw [hfin]
    intro p hp
    simp [retrieveResponse, hN, hR] at hp
    subst hp
    simp [alookup_adel_self]

/-- Closed witness for C1: one partial frame with data `[1]` then a 200
frame with data `[2]`; the signal fires exactly at the second frame and
the caller retrieves `[1, 2]`. -/
theorem correlator_stream_confirmed_witness :
    (processFrames ⟨[], [("a", [])], []⟩
        [⟨"a", 206, [1]⟩, ⟨"a", 200, [2]⟩]).2 = [false, true] ∧
    (retrieveResponse false
        (processFrames ⟨[], [("a", [])], []⟩
          [⟨"a", 206, [1]⟩, ⟨"a", 200, [2]⟩]).1 "a").map Prod.fst
      = some [1, 2] := by
  have h := correlator_stream_confirmed "a" [⟨"a", 206, [1]⟩] ⟨"a", 200, [2]⟩
    ⟨[], [("a", [])], []⟩ rfl rfl (by simp) rfl (by decide)
  exact ⟨h.1, h.2.1⟩

example : parseTag "graph,string" = ("graph", "string") := by decide

example : parseTag "" = ("", "") := by decide

example : parseTag "a,b,c" = ("a", "b,c") := by decide

example : tagContains "string,foo" "foo" = true := by decide

example : tagContains "string,foo" "bar" = false := by decide

example : tagContains "" "string" = false := by decide

example : escapeString "a'b\"c\\d" = "a\\'b\\\"c\\\\d" := by decide

/-! ## Claim C6: retrieval, timeout and entry cleanup -/

/-- C6 counterexample: on a `ReadingWait` timeout the caller gets an
empty result, but `retrieveResponse` returns without touching the
pending state — the results entry (here `[3, 4]` for request `r`) and
the notifier entry both survive, so the pending entry is NOT consumed
and deleted in both cases as the claim requires. -/
theorem retrieve_timeout_keeps_entry :
    retrieveResponse true ⟨[("r", [3, 4])], [("r", [])], []⟩ "r"
      = some ([], ⟨[("r", [3, 4])], [("r", [])], []⟩) ∧
    alookup "r" (⟨[("r", [3, 4])], [("r", [])], []⟩ : ClientState).results
      = some [3, 4] := by
  decide

/-- C6 amended: on completion (a signal queued on the notifier channel
and a buffered results entry) the caller receives the buffer and both
pending entries are deleted; on timeout the caller receives an empty
result and no error, and the pending state is left untouched. -/
theorem retrieveResponse_amended (s : ClientState) (r : String)
    (d q : List Nat)
    (hnot : alookup r s.notifier = some (1 :: q))
    (hres : alookup r s.results = some d) :
    (retrieveResponse false s r).map Prod.fst = some d ∧
    (∀ p ∈ retrieveResponse false s r,
       alookup r p.2.results = none ∧ alookup r p.2.notifier = none) ∧
    (∀ s' : ClientState, retrieveResponse true s' r = some ([], s')) := by
  refine ⟨?_, ?_, fun s' => by simp [retrieveResponse]⟩
  · simp [retrieveResponse, hnot, hres]
  · intro p hp
    simp [retrieveResponse, hnot, hres] at hp
    subst hp
    simp [alookup_adel_self]

/-- Closed witness for C6 at a concrete completed entry. -/
theorem retrieveResponse_amended_witness :
    (retrieveResponse false ⟨[("r", [3])], [("r", [1])], []⟩ "r").map Prod.fst
      = some [3] := by
  exact (retrieveResponse_amended ⟨[("r", [3])], [("r", [1])], []⟩ "r" [3] []
    rfl rfl).1

/-! ## Claim C3: frames whose status code signals an error -/

/-- C3 counterexample: a status-500 frame for a pending request is
dropped whole by `handleResponse` — the state (buffer, notifier,
writer queue) is returned unchanged, nothing is appended or stored, no
completion is signalled; the error is merely the function's return
value, which the read worker pushes on the asynchronous error channel,
so nothing is returned synchronously to the waiting caller. -/
theorem handleResponse_error_drops_frame :
    handleResponse none ⟨[("r", [])], [("r", [])], []⟩ ⟨"r", 500, [7]⟩
      = .ret ⟨[("r", [])], [("r", [])], []⟩ (some .serverError500) := by
  decide

/-- C3 amended: for every frame whose status code maps to an error
other than the 407 marker, `handleResponse` returns that error with the
client state untouched (no data appended, no error stored, no signal),
and the read worker publishes the error on the shared asynchronous
error channel; the waiting caller is never completed by such a frame. -/
theorem handleResponse_error_amended (authReq : Option GremlinRequest)
    (s : ClientState) (f : GFrame) (e : GremErr)
    (hdet : responseDetectError f.code = some e)
    (hne : e ≠ .authenticate407) :
    handleResponse authReq s f = .ret s (some e) ∧
    readWorkerStep authReq s f = some (s, [e]) := by
  have h1 : handleResponse authReq s f = .ret s (some e) := by
    simp [handleResponse, hdet, hne]
  exact ⟨h1, by simp [readWorkerStep, h1]⟩

/-- Closed witness for C3 at a concrete status-500 frame. -/
theorem handleResponse_error_amended_witness :
    handleResponse none ⟨[], [], []⟩ ⟨"x", 500, [9]⟩
      = .ret ⟨[], [], []⟩ (some .serverError500) := by
  exact (handleResponse_error_amended none ⟨[], [], []⟩ ⟨"x", 500, [9]⟩
    .serverError500 (by decide) (by decide)).1

/-! ## Claim C2: the 407 authentication challenge -/

/-- C2: on a 407 frame with credentials configured, the client rewrites
the pre-built auth template to the SAME request id, packages it and
enqueues it on the writer queue, leaving the pending entry (results
and notifier) untouched — but with NO credentials configured,
`authenticate` dereferences the nil `conf.AuthReq` and the client
panics: the pending entry is never completed with `ErrorNoAuth`
(`ErrorNoAuth` is declared in types.go and never used). -/
theorem handleResponse_407_behavior :
    handleResponse none ⟨[], [("u1", [])], []⟩ ⟨"u1", 407, []⟩ = .gopanic ∧
    handleResponse (some (prepareAuthRequest "u0" [117] [112]))
        ⟨[], [("u1", [])], []⟩ ⟨"u1", 407, []⟩
      = .ret ⟨[], [("u1", [])],
          [packageRequest (prepareAuthRequest "u1" [117] [112])]⟩ none := by
  exact ⟨rfl, rfl⟩

/-! ## Claim C5: the AddV query builder -/

/-- C5: a record that DOES have an `Id` field but contributes no graph
tag (here its only field carries the empty tag) makes `AddV` fail with
`ErrorInterfaceHasNoIdField` — not `ErrorNoGraphTags` as the claim
(and the declared error taxonomy) require. -/
theorem addV_no_tags_wrong_error :
    addVQuery "test" ⟨some "64795211-c4a1-4eac-9e0a-b674ced77461",
        [⟨"Id", "", .vUuid "64795211-c4a1-4eac-9e0a-b674ced77461"⟩]⟩
      = some (.error .interfaceHasNoIdField) ∧
    GremErr.interfaceHasNoIdField ≠ GremErr.noGraphTags := by
  exact ⟨rfl, by decide⟩

/-! ## Model validation on the spec's end-to-end scenarios -/

example : addVQuery "test"
    ⟨some "64795211-c4a1-4eac-9e0a-b674ced77461",
     [⟨"Id", "id,string", .vUuid "64795211-c4a1-4eac-9e0a-b674ced77461"⟩,
      ⟨"A", "a,string", .vStr "aa"⟩,
      ⟨"B", "b,number", .vNum 10⟩,
      ⟨"N", "n,bool", .vBool true⟩]⟩
    = some (.ok ("g.addV('test')"
        ++ ".property('id', '64795211-c4a1-4eac-9e0a-b674ced77461')"
        ++ ".property('a', 'aa').property('b', 10).property('n', true)")) := by
  rfl

example : buildProps [("foo", .pStr "bar"), ("biz", .pNum 3)]
    = .ok ".property('foo', 'bar').property('biz', 3)" := by rfl

example : addEQuery "relates" "64795211-c4a1-4eac-9e0a-b674ced77461"
      "dafeafc6-63a7-42b2-8ac2-4b85c3e2e37a"
    = "g.V('64795211-c4a1-4eac-9e0a-b674ced77461').addE('relates')"
      ++ ".to(g.V('dafeafc6-63a7-42b2-8ac2-4b85c3e2e37a'))" := by decide

example : dropEQuery "relates" "64795211-c4a1-4eac-9e0a-b674ced77461"
      "dafeafc6-63a7-42b2-8ac2-4b85c3e2e37a"
    = "g.V('64795211-c4a1-4eac-9e0a-b674ced77461').outE('relates')"
      ++ ".and(inV().is('dafeafc6-63a7-42b2-8ac2-4b85c3e2e37a')).drop()" := by decide

/-! ## Claim C10: numeric property decoding in `Get`

The float branch of the field switch (part_008 lines 302-313) calls
`vNumber.Float64()`, i.e. `strconv.ParseFloat(s, 64)`, discarding the
error, then assigns unless `reflect.Value.OverflowFloat` objects.  A
float64 result is modelled symbolically: `finite n` stands for the
float64 (and, on assignment to a 32-bit field, float32) rounding of the
integer wire value `n`, and the two infinities are explicit.
`ParseFloat` returns ±Inf (with a discarded range error) exactly when
the wire value's magnitude reaches `MaxFloat64` plus half an ulp,
i.e. `(2^54 - 1)·2^970`; `OverflowFloat` is `false` for every float64
field, and for a float32 field it is `MaxFloat32 < |x| ∧ |x| ≤
MaxFloat64` — the second conjunct holds for every finite parse result,
and the model compares the first against the exact wire value, which
agrees with Go's comparison of the rounded value except for wire
integers within half a float64 ulp (`2^74`) above `MaxFloat32`; the
theorems below keep a full-ulp margin away from that band. -/

/-- `math.MaxFloat64` = `(2^53 - 1) · 2^971`. -/
def maxFloat64 : Int := (2 ^ 53 - 1) * 2 ^ 971

/-- `math.MaxFloat32` = `(2^24 - 1) · 2^104`. -/
def maxFloat32 : Int := (2 ^ 24 - 1) * 2 ^ 104

/-- The smallest magnitude that `strconv.ParseFloat` turns into ±Inf:
`MaxFloat64` plus half an ulp (round-to-nearest-even boundary). -/
def float64InfCutoff : Int := (2 ^ 54 - 1) * 2 ^ 970

/-- A float64 value as produced by the parse: the rounding of a wire
integer (tracked symbolically by that integer), or an infinity. -/
inductive GoFloat64 : Type where
  | finite (n : Int)
  | posInf
  | negInf
deriving DecidableEq

/-- `json.Number.Float64` with the error discarded
(`strconv.ParseFloat`): magnitudes at or beyond the rounding boundary
become ±Inf; everything else parses to the (symbolic) finite rounding. -/
def parseFloat64 (n : Int) : GoFloat64 :=
  if float64InfCutoff ≤ n then .posInf
  else if n ≤ -float64InfCutoff then .negInf
  else .finite n

/-- `reflect.Value.OverflowFloat` for a float field of width `w` bits:
always `false` for float64; for float32 it is
`MaxFloat32 < |x| ∧ |x| ≤ MaxFloat64`, which a finite parse result
reduces to its first conjunct and which both infinities fail (so ±Inf
is never rejected). -/
def overflowFloatG (w : Nat) (v : GoFloat64) : Bool :=
  match v with
  | .posInf => false
  | .negInf => false
  | .finite m => if w = 32 then decide (maxFloat32 < |m|) else false

/-- The final value of a float field of width `w` after `Get` decodes
the single-valued wire number `n` into it: the parse result unless the
overflow check rejects it, in which case the field keeps its zero
value. -/
def decodeFloatField (w : Nat) (n : Int) : GoFloat64 :=
  let v := parseFloat64 n
  if overflowFloatG w v then .finite 0 else v

/-- The claim's reading of the float decode: assign the parsed value
when it fits the field's width, else leave the field at zero. -/
def specDecodeFloatField (w : Nat) (n : Int) : GoFloat64 :=
  if |n| ≤ (if w = 32 then maxFloat32 else maxFloat64) then .finite n
  else .finite 0

theorem overflowFloatG_posInf (w : Nat) : overflowFloatG w .posInf = false := rfl

theorem overflowFloatG_negInf (w : Nat) : overflowFloatG w .negInf = false := rfl

theorem overflowFloatG32_finite (m : Int) :
    overflowFloatG 32 (.finite m) = decide (maxFloat32 < |m|) := rfl

theorem decodeFloatField_eq (w : Nat) (n : Int) :
    decodeFloatField w n
      = if overflowFloatG w (parseFloat64 n) then .finite 0 else parseFloat64 n := rfl

theorem maxFloat64_lt_cutoff : maxFloat64 < float64InfCutoff := by
  norm_num [maxFloat64, float64InfCutoff]

theorem maxFloat32_lt_maxFloat64 : maxFloat32 < maxFloat64 := by
  norm_num [maxFloat32, maxFloat64]

theorem float64InfCutoff_pos : (0 : Int) < float64InfCutoff := by
  norm_num [float64InfCutoff]

theorem specDecodeFloatField_64 (n : Int) :
    specDecodeFloatField 64 n = if |n| ≤ maxFloat64 then .finite n else .finite 0 := rfl

theorem specDecodeFloatField_32 (n : Int) :
    specDecodeFloatField 32 n = if |n| ≤ maxFloat32 then .finite n else .finite 0 := rfl

/-- C10 counterexample: decoding the wire number `2^63` into an `int64`
field assigns the saturated value `2^63 - 1` (because
`json.Number.Int64`'s range error is discarded), not the zero value the
claim requires; `-1` decoded into a `uint64` field is assigned as
`2^64 - 1` rather than fitting or staying zero; and a wire value beyond
the float64 range (twice the Inf cutoff, concretely `(2^54 - 1)·2^971`)
decoded into a `float64` field is assigned `+Inf` — `OverflowFloat`
never fires for float64 — instead of being left at zero, and lands as
`-Inf` even in a `float32` field for the negated input. -/
theorem get_numeric_decode_counterexample :
    decodeIntField 64 (2 ^ 63) = 2 ^ 63 - 1 ∧
    specDecodeIntField 64 (2 ^ 63) = 0 ∧
    decodeIntField 64 (2 ^ 63) ≠ specDecodeIntField 64 (2 ^ 63) ∧
    decodeUintField 64 (-1) = 2 ^ 64 - 1 ∧
    specDecodeUintField 64 (-1) = 0 ∧
    decodeUintField 64 (-1) ≠ specDecodeUintField 64 (-1) ∧
    decodeFloatField 64 (2 * float64InfCutoff) = .posInf ∧
    specDecodeFloatField 64 (2 * float64InfCutoff) = .finite 0 ∧
    decodeFloatField 64 (2 * float64InfCutoff)
      ≠ specDecodeFloatField 64 (2 * float64InfCutoff) ∧
    decodeFloatField 32 (-(2 * float64InfCutoff)) = .negInf ∧
    specDecodeFloatField 32 (-(2 * float64InfCutoff)) = .finite 0 := by
  have hc := float64InfCutoff_pos
  have h64 := maxFloat64_lt_cutoff
  have h32 := maxFloat32_lt_maxFloat64
  have habs2 : |2 * float64InfCutoff| = 2 * float64InfCutoff :=
    abs_of_nonneg (by linarith)
  have hpos : parseFloat64 (2 * float64InfCutoff) = .posInf := by
    simp only [parseFloat64]
    rw [if_pos (by linarith)]
  have hneg : parseFloat64 (-(2 * float64InfCutoff)) = .negInf := by
    simp only [parseFloat64]
    rw [if_neg (not_le.mpr (by linarith)), if_pos (by linarith)]
  have e1 : decodeFloatField 64 (2 * float64InfCutoff) = .posInf := by
    rw [decodeFloatField_eq, hpos]; rfl
  have e2 : specDecodeFloatField 64 (2 * float64InfCutoff) = .finite 0 := by
    rw [specDecodeFloatField_64,
      if_neg (not_le.mpr (by rw [habs2]; linarith))]
  have e3 : decodeFloatField 32 (-(2 * float64InfCutoff)) = .negInf := by
    rw [decodeFloatField_eq, hneg]; rfl
  have e4 : specDecodeFloatField 32 (-(2 * float64InfCutoff)) = .finite 0 := by
    rw [specDecodeFloatField_32,
      if_neg (not_le.mpr (by rw [abs_neg, habs2]; linarith))]
  refine ⟨by decide, by decide, by decide, by decide, by decide, by decide,
    e1, e2, ?_, e3, e4⟩
  rw [e1, e2]
  decide

/-- C10 amended: the parse range errors are discarded, so (a) integer
wire values within the int64 range behave as the claim says — assigned
iff they fit the field's width, zero otherwise, never an error — while
out-of-range values saturate to the int64 bounds, and negative values
decoded into unsigned fields are reinterpreted modulo `2^64` (landing
as large values in a 64-bit field and as zero in narrower ones); and
(b) float wire values within the float64 range parse to their finite
rounding, float64 fields always accept the parse result, float32
fields accept values within the float32 range and stay zero on finite
values beyond it — but a wire value beyond the float64 range parses to
±Inf, which the overflow checks of BOTH float widths admit, so the
field is assigned ±Inf rather than left at zero. -/
theorem get_numeric_decode_amended (w : Nat) (n : Int) :
    (minInt64 ≤ n ∧ n ≤ maxInt64 → decodeIntField w n = specDecodeIntField w n) ∧
    (maxInt64 < n →
      decodeIntField w n = if overflowInt w maxInt64 then 0 else maxInt64) ∧
    (n < minInt64 →
      decodeIntField w n = if overflowInt w minInt64 then 0 else minInt64) ∧
    (0 ≤ n ∧ n ≤ maxInt64 → decodeUintField w n = specDecodeUintField w n) ∧
    (minInt64 ≤ n ∧ n < 0 → decodeUintField 64 n = (n + 2 ^ 64).toNat) ∧
    (w ≤ 63 → minInt64 ≤ n → n < 0 → decodeUintField w n = 0) ∧
    (|n| ≤ maxFloat64 → parseFloat64 n = .finite n) ∧
    (decodeFloatField 64 n = parseFloat64 n) ∧
    (float64InfCutoff ≤ n →
      decodeFloatField 64 n = .posInf ∧ decodeFloatField 32 n = .posInf) ∧
    (n ≤ -float64InfCutoff →
      decodeFloatField 64 n = .negInf ∧ decodeFloatField 32 n = .negInf) ∧
    (|n| ≤ maxFloat32 → decodeFloatField 32 n = .finite n) ∧
    (maxFloat32 + 2 ^ 75 ≤ |n| → |n| ≤ maxFloat64 →
      decodeFloatField 32 n = .finite 0) := by
  have hparse : |n| ≤ maxFloat64 → parseFloat64 n = .finite n := by
    intro h
    obtain ⟨ha, hb⟩ := abs_le.mp h
    simp only [parseFloat64]
    rw [if_neg (not_le.mpr (by linarith [maxFloat64_lt_cutoff])),
        if_neg (not_le.mpr (by linarith [maxFloat64_lt_cutoff]))]
  refine ⟨?_, ?_, ?_, ?_, ?_, ?_, hparse, ?_, ?_, ?_, ?_, ?_⟩
  · rintro ⟨h1, h2⟩
    simp only [minInt64, maxInt64] at h1 h2
    have hp : parseInt64 n = n := by
      simp only [parseInt64, maxInt64, minInt64]
      rw [if_neg (by omega), if_neg (by omega)]
    simp only [decodeIntField, specDecodeIntField, hp, overflowInt, decide_eq_true_eq]
    generalize (2 : Int) ^ (w - 1) = p
    split_ifs <;> omega
  · intro h
    have hp : parseInt64 n = maxInt64 := by
      simp only [parseInt64]
      rw [if_pos h]
    simp only [decodeIntField, hp]
  · intro h
    have hp : parseInt64 n = minInt64 := by
      simp only [parseInt64]
      rw [if_neg (by simp only [maxInt64, minInt64] at h ⊢; omega), if_pos h]
    simp only [decodeIntField, hp]
  · rintro ⟨h1, h2⟩
    simp only [maxInt64] at h2
    have hp : parseInt64 n = n := by
      simp only [parseInt64, maxInt64, minInt64]
      rw [if_neg (by omega), if_neg (by omega)]
    have hu : toUint64 n = n.toNat := by
      simp only [toUint64]
      rw [Int.emod_eq_of_lt h1 (by omega)]
    simp only [decodeUintField, hp, hu, specDecodeUintField, overflowUint,
      decide_eq_true_eq]
    have hcast : ((2 ^ w : Nat) : Int) = (2 : Int) ^ w := by push_cast; ring
    rw [← hcast]
    generalize (2 ^ w : Nat) = q at *
    split_ifs <;> omega
  · rintro ⟨h1, h2⟩
    simp only [minInt64] at h1
    have hp : parseInt64 n = n := by
      simp only [parseInt64, maxInt64, minInt64]
      rw [if_neg (by omega), if_neg (by omega)]
    have hu : toUint64 n = (n + 2 ^ 64).toNat := by
      simp only [toUint64]
      have hmod : n % 2 ^ 64 = n + 2 ^ 64 := by omega
      rw [hmod]
    simp only [decodeUintField, hp, hu, overflowUint, decide_eq_true_eq]
    rw [if_neg (by omega)]
  · intro hw h1 h2
    simp only [minInt64] at h1
    have hp : parseInt64 n = n := by
      simp only [parseInt64, maxInt64, minInt64]
      rw [if_neg (by omega), if_neg (by omega)]
    have hu : toUint64 n = (n + 2 ^ 64).toNat := by
      simp only [toUint64]
      have hmod : n % 2 ^ 64 = n + 2 ^ 64 := by omega
      rw [hmod]
    have hple : (2 : Nat) ^ w ≤ 2 ^ 63 := Nat.pow_le_pow_right (by norm_num) hw
    simp only [decodeUintField, hp, hu, overflowUint, decide_eq_true_eq]
    rw [if_pos (le_trans hple (by omega))]
  · cases hv : parseFloat64 n with
    | finite m => rw [decodeFloatField_eq, hv]; rfl
    | posInf => rw [decodeFloatField_eq, hv]; rfl
    | negInf => rw [decodeFloatField_eq, hv]; rfl
  · intro h
    have hp : parseFloat64 n = .posInf := by
      simp only [parseFloat64]
      rw [if_pos h]
    exact ⟨by rw [decodeFloatField_eq, hp]; rfl,
           by rw [decodeFloatField_eq, hp]; rfl⟩
  · intro h
    have hp : parseFloat64 n = .negInf := by
      simp only [parseFloat64]
      rw [if_neg (not_le.mpr (by linarith [float64InfCutoff_pos])), if_pos h]
    exact ⟨by rw [decodeFloatField_eq, hp]; rfl,
           by rw [decodeFloatField_eq, hp]; rfl⟩
  · intro h
    have hp : parseFloat64 n = .finite n :=
      hparse (le_trans h (le_of_lt maxFloat32_lt_maxFloat64))
    have hno : ¬ maxFloat32 < |n| := not_lt.mpr h
    rw [decodeFloatField_eq, hp, overflowFloatG32_finite]
    simp [hno]
  · intro h1 h2
    have hp : parseFloat64 n = .finite n := hparse h2
    have hyes : maxFloat32 < |n| := by
      have hpow : (0 : Int) < 2 ^ 75 := by positivity
      linarith
    rw [decodeFloatField_eq, hp, overflowFloatG32_finite]
    simp [hyes]

/-- Closed witness for C10 at concrete in-range and out-of-range
inputs: the wire value `5` decoded into an `int8` field is assigned
unchanged, `5` into a `float32` field is assigned, and a wire value
beyond the float64 range decoded into a `float64` field is assigned
`+Inf`. -/
theorem get_numeric_decode_amended_witness :
    (minInt64 ≤ (5 : Int) ∧ (5 : Int) ≤ maxInt64) ∧
    decodeIntField 8 5 = specDecodeIntField 8 5 ∧
    decodeFloatField 32 5 = .finite 5 ∧
    decodeFloatField 64 (2 * float64InfCutoff) = .posInf := by
  refine ⟨⟨by decide, by decide⟩, ?_, ?_, ?_⟩
  · exact (get_numeric_decode_amended 8 5).1 ⟨by decide, by decide⟩
  · exact (get_numeric_decode_amended 32 5).2.2.2.2.2.2.2.2.2.2.1
      (by rw [abs_of_nonneg (by norm_num)]; norm_num [maxFloat32])
  · exact ((get_numeric_decode_amended 64 (2 * float64InfCutoff)).2.2.2.2.2.2.2.2.1
      (by linarith [float64InfCutoff_pos])).1
